import Mathlib

/-!
Shallow embedding of the `spprof` sampling profiler's Python data plane
(`src/spprof/__init__.py`, `src/spprof/output.py`, `src/spprof/memprof.py`)
together with theorems settling the specification's claims about it.

Conventions of the embedding:
* Python `int` is modelled as `Int` (or `Nat` where the source value is a
  length/count produced by `len`/`Counter`), `str` as `String`, `None` as
  `Option.none`, `datetime` instants as `ℚ` (seconds), lists as `List`.
* Python string comparison is code-point lexicographic; it is modelled by
  `charsLt`/`pyStrLe` below because Lean's built-in `String` order does not
  reduce in the kernel.
* Insertion-ordered `dict`/`Counter` accumulation is modelled by first
  occurrence deduplication (`dedupFirst`) of the keys in traversal order
  paired with aggregation over the full traversal; this is extensionally
  the mapping the Python dict holds, in the same iteration order.
* `sorted` is modelled by `List.insertionSort`, which is a stable sort like
  Python's and agrees with it on the orders used here.
* Calls into the native extension that merely succeed or fail are modelled
  as succeeding; every claim settled below concerns pure-Python control
  flow that runs before (or independently of) those calls.
-/

namespace Spprof

/-! ### Python string order (code-point lexicographic) -/

/-- Lexicographic strict comparison of code-point sequences, exactly the
order Python uses on `str`. -/
def charsLt : List Char → List Char → Bool
  | [], [] => false
  | [], _ :: _ => true
  | _ :: _, [] => false
  | a :: as, b :: bs =>
    if a.toNat < b.toNat then true
    else if b.toNat < a.toNat then false
    else charsLt as bs

/-- Python `a <= b` on strings. -/
def pyStrLe (a b : String) : Bool := ! charsLt b.data a.data

/-- `pyStrLe` as a relation, for use with `List.insertionSort`. -/
def strLe (a b : String) : Prop := pyStrLe a b = true

instance : DecidableRel strLe := fun _ _ => instDecidableEqBool _ _

/-! ### First-occurrence deduplication (insertion-ordered dict keys) -/

/-- Append `x` unless already present: the key set of a Python dict grows
this way as items are inserted in traversal order. -/
def insertDistinct [DecidableEq α] (acc : List α) (x : α) : List α :=
  if x ∈ acc then acc else acc ++ [x]

/-- The keys of an insertion-ordered dict built by traversing `l`. -/
def dedupFirst [DecidableEq α] (l : List α) : List α :=
  l.foldl insertDistinct []

/-! ### Data model (`spprof/__init__.py`) -/

/-- `Frame` dataclass: a single frame in a call stack. -/
structure Frame where
  function_name : String
  filename : String
  lineno : Int
  is_native : Bool
deriving DecidableEq, Repr

/-- `Sample` dataclass: a single profiling sample; `frames` is leaf-first. -/
structure Sample where
  timestamp_ns : Int
  thread_id : Int
  thread_name : Option String
  frames : List Frame
deriving DecidableEq, Repr

/-- `StackTrace` dataclass: the aggregation key; dataclass equality compares
all three fields. -/
structure StackTrace where
  frames : List Frame
  thread_id : Int
  thread_name : Option String
deriving DecidableEq, Repr

/-- `AggregatedStack` dataclass: a call stack with its occurrence count. -/
structure AggregatedStack where
  frames : List Frame
  thread_id : Int
  thread_name : Option String
  count : Nat
deriving DecidableEq, Repr

/-- `AggregatedProfile` dataclass. -/
structure AggregatedProfile where
  start_time : ℚ
  end_time : ℚ
  interval_ms : Int
  -- field `stacks` in the source; `stacks` is a reserved token here, hence the prime
  stacks' : List AggregatedStack
  total_samples : Nat
  dropped_count : Int
  python_version : String
  platform : String

/-- `Profile` dataclass. -/
structure Profile where
  start_time : ℚ
  end_time : ℚ
  interval_ms : Int
  samples : List Sample
  dropped_count : Int
  python_version : String
  platform : String

/-- `Profile.sample_count` property. -/
def Profile.sample_count (p : Profile) : Nat := p.samples.length

/-- `Profile.total_duration_ms` property (`timedelta.total_seconds() * 1000`). -/
def Profile.total_duration_ms (p : Profile) : ℚ :=
  (p.end_time - p.start_time) * 1000

/-- `Profile.effective_rate_hz` property. -/
def Profile.effective_rate_hz (p : Profile) : ℚ :=
  let duration_s := p.total_duration_ms / 1000
  if duration_s ≤ 0 then 0 else (p.sample_count : ℚ) / duration_s

/-- `AggregatedProfile.unique_stack_count` property. -/
def AggregatedProfile.unique_stack_count (a : AggregatedProfile) : Nat :=
  a.stacks'.length

/-- `AggregatedProfile.compression_ratio` property. -/
def AggregatedProfile.compression_ratio (a : AggregatedProfile) : ℚ :=
  if a.unique_stack_count = 0 then 1
  else (a.total_samples : ℚ) / (a.unique_stack_count : ℚ)

/-- `AggregatedProfile.memory_reduction_pct` property. -/
def AggregatedProfile.memory_reduction_pct (a : AggregatedProfile) : ℚ :=
  if a.total_samples = 0 then 0
  else (1 - (a.unique_stack_count : ℚ) / (a.total_samples : ℚ)) * 100

/-! ### `Profile.aggregate` -/

/-- The `StackTrace` key built from a sample inside `Profile.aggregate`
(`StackTrace(frames=tuple(sample.frames), thread_id=..., thread_name=...)`). -/
def sampleKey (s : Sample) : StackTrace :=
  ⟨s.frames, s.thread_id, s.thread_name⟩

/-- The multiplicity the `Counter` assigns to key `k`. -/
def keyCount (ss : List Sample) (k : StackTrace) : Nat :=
  ss.countP (fun s => decide (sampleKey s = k))

/-- `Profile.aggregate`: count unique stacks with a `Counter` (keys in first
occurrence order) and rebuild `AggregatedStack`s from its items, carrying all
session metadata over unchanged. -/
def Profile.aggregate (p : Profile) : AggregatedProfile :=
  let keys := dedupFirst (p.samples.map sampleKey)
  { start_time := p.start_time
    end_time := p.end_time
    interval_ms := p.interval_ms
    stacks' := keys.map (fun k =>
      { frames := k.frames
        thread_id := k.thread_id
        thread_name := k.thread_name
        count := keyCount p.samples k })
    total_samples := p.sample_count
    dropped_count := p.dropped_count
    python_version := p.python_version
    platform := p.platform }

/-- `Profile.aggregate` with the post-state of the receiver made explicit:
the method body only reads `p.samples` and builds fresh objects
(`tuple(sample.frames)`, `list(stack.frames)`), assigning to no field of
`p`, so the post-state of `p` is `p` itself. -/
def Profile.aggregateRun (p : Profile) : AggregatedProfile × Profile :=
  (p.aggregate, p)

/-! ### Collapsed stack output (`output.py`) -/

/-- Display of one frame in collapsed output: optional `[native]` marker,
then `name (file:line)` for Python frames with truthy filename and lineno. -/
def frameDisplay (mark_native : Bool) (f : Frame) : String :=
  let func :=
    if mark_native && f.is_native then "[native] " ++ f.function_name
    else f.function_name
  if f.filename ≠ "" ∧ f.lineno ≠ 0 ∧ f.is_native = false then
    func ++ " (" ++ f.filename ++ ":" ++ toString f.lineno ++ ")"
  else func

/-- The `;`-joined root-to-leaf display of a sample's leaf-first stack. -/
def sampleStackStr (mark_native : Bool) (s : Sample) : String :=
  String.intercalate ";" (s.frames.reverse.map (frameDisplay mark_native))

/-- Samples that survive the `if not sample.frames: continue` check. -/
def framedSamples (ss : List Sample) : List Sample :=
  ss.filter (fun s => ! s.frames.isEmpty)

/-- Keys of the `stack_counts` dict, in insertion order. -/
def collapsedKeys (mark_native : Bool) (ss : List Sample) : List String :=
  dedupFirst ((framedSamples ss).map (sampleStackStr mark_native))

/-- The count `stack_counts` holds for display string `k`. -/
def collapsedCount (mark_native : Bool) (ss : List Sample) (k : String) : Nat :=
  (framedSamples ss).countP (fun s => decide (sampleStackStr mark_native s = k))

/-- The `sorted(stack_counts.items())` list (keys are distinct, so sorting
the items lexicographically is sorting by key). -/
def collapsedEntries (mark_native : Bool) (ss : List Sample) :
    List (String × Nat) :=
  (List.insertionSort strLe (collapsedKeys mark_native ss)).map
    (fun k => (k, collapsedCount mark_native ss k))

/-- `to_collapsed(profile, mark_native)`: one `stack count` line per dict
entry, joined by newlines (no trailing newline). -/
def to_collapsed (p : Profile) (mark_native : Bool) : String :=
  String.intercalate "\n"
    ((collapsedEntries mark_native p.samples).map
      (fun e => e.1 ++ " " ++ toString e.2))

/-- The `;`-joined root-to-leaf display of an aggregated stack. -/
def stackDisplay (mark_native : Bool) (st : AggregatedStack) : String :=
  String.intercalate ";" (st.frames.reverse.map (frameDisplay mark_native))

/-- The `sorted(lines)` list of `aggregated_to_collapsed`: one line per
aggregated stack (skipping empty stacks), whole lines sorted. -/
def aggCollapsedLines (mark_native : Bool) (a : AggregatedProfile) :
    List String :=
  List.insertionSort strLe
    ((a.stacks'.filter (fun st => ! st.frames.isEmpty)).map
      (fun st => stackDisplay mark_native st ++ " " ++ toString st.count))

/-- `aggregated_to_collapsed(profile, mark_native)`: the sorted lines
joined by newlines (no trailing newline). -/
def aggregated_to_collapsed (a : AggregatedProfile) (mark_native : Bool) :
    String :=
  String.intercalate "\n" (aggCollapsedLines mark_native a)

/-! ### Speedscope output (`output.py` and `memprof.py`) -/

/-- A `shared.frames` entry `{name, file, line}`, identified with the
dedup key `(name, file, line)` used by the CPU emitters. -/
abbrev FrameKey : Type := String × String × Int

/-- The dedup key of a frame in `get_frame_index`. -/
def frameKey (f : Frame) : FrameKey :=
  (f.function_name, f.filename, f.lineno)

/-- Index of the first occurrence of `k` in `fs` (0 if absent; only applied
to present keys). -/
def posOf [DecidableEq α] : List α → α → Nat
  | [], _ => 0
  | x :: xs, k => if x = k then 0 else posOf xs k + 1

/-- `get_frame_index`: look the key up in the frame map, appending it with
the next index when unseen. Returns the updated frame list and the index. -/
def internFrame (fs : List FrameKey) (k : FrameKey) : List FrameKey × Nat :=
  if k ∈ fs then (fs, posOf fs k) else (fs ++ [k], fs.length)

/-- Intern a list of keys in order, threading the frame list. -/
def internKeys (fs : List FrameKey) : List FrameKey → List FrameKey × List Nat
  | [] => (fs, [])
  | k :: ks =>
    let r1 := internFrame fs k
    let r2 := internKeys r1.1 ks
    (r2.1, r1.2 :: r2.2)

/-- Intern each sample's frame stack in order (the `stack_indices`
comprehension of `to_speedscope`, which walks `sample.frames` as stored,
leaf-first, without reversing). -/
def internSamples (fs : List FrameKey) :
    List Sample → List FrameKey × List (List Nat)
  | [] => (fs, [])
  | s :: rest =>
    let r1 := internKeys fs (s.frames.map frameKey)
    let r2 := internSamples r1.1 rest
    (r2.1, r1.2 :: r2.2)

/-- A per-thread profile object of the speedscope document. -/
structure ThreadProfile where
  type : String
  name : String
  unit : String
  startValue : Int
  endValue : Int
  samples : List (List Nat)
  weights : List Int
deriving DecidableEq, Repr

/-- The top-level speedscope JSON object. `name`/`exporter` are `Option`s
because the memory emitter's dict literal omits those keys. -/
structure SpeedscopeDoc where
  schema : String
  version : String
  sharedFrames : List FrameKey
  profiles : List ThreadProfile
  name : Option String
  exporter : Option String

/-- The keys of the emitted top-level JSON object, in dict-literal order. -/
def SpeedscopeDoc.topKeys (d : SpeedscopeDoc) : List String :=
  ["$schema", "version", "shared", "profiles"]
    ++ (match d.name with | some _ => ["name"] | none => [])
    ++ (match d.exporter with | some _ => ["exporter"] | none => [])

/-- The fixed schema URL. -/
def schemaUrl : String := "https://www.speedscope.app/file-format-schema.json"

/-- `spprof.__version__` (also the `_get_version()` fallback). -/
def spprofVersion : String := "0.1.0"

/-- Truthiness of `sample.thread_name` (`if sample.thread_name:`). -/
def truthyName : Option String → Bool
  | none => false
  | some s => ! (s = "")

/-- `thread_names.get(thread_id, f"Thread-{thread_id}")`: the dict is filled
with each truthy name in sample order, so the lookup yields the last truthy
name recorded for the thread. -/
def threadNameFor (ss : List Sample) (tid : Int) : String :=
  match (ss.filter
      (fun s => decide (s.thread_id = tid) && truthyName s.thread_name)).getLast? with
  | some s => (match s.thread_name with | some nm => nm | none => "")
  | none => "Thread-" ++ toString tid

/-- One thread's profile object in `to_speedscope`. -/
def mkThreadProfile (p : Profile) (tid : Int) (arrays : List (List Nat)) :
    ThreadProfile :=
  let tss := p.samples.filter (fun s => decide (s.thread_id = tid))
  let startT := match tss.head? with | some s => s.timestamp_ns | none => 0
  let endT := match tss.getLast? with | some s => s.timestamp_ns | none => startT
  { type := "sampled"
    name := threadNameFor p.samples tid
    unit := "nanoseconds"
    startValue := 0
    endValue := endT - startT
    samples := arrays
    weights := tss.map (fun _ => p.interval_ms * 1000000) }

/-- The per-thread loop of `to_speedscope`, threading the shared frame list
through the threads in first-occurrence order of their ids. -/
def buildThreads (p : Profile) :
    List FrameKey → List Int → List FrameKey × List ThreadProfile
  | fs, [] => (fs, [])
  | fs, tid :: rest =>
    let tss := p.samples.filter (fun s => decide (s.thread_id = tid))
    if tss.isEmpty then buildThreads p fs rest
    else
      let r1 := internSamples fs tss
      let r2 := buildThreads p r1.1 rest
      (r2.1, mkThreadProfile p tid r1.2 :: r2.2)

/-- `to_speedscope(profile)`. -/
def to_speedscope (p : Profile) : SpeedscopeDoc :=
  let tids := dedupFirst (p.samples.map (·.thread_id))
  let r := buildThreads p [] tids
  { schema := schemaUrl
    version := "1.0.0"
    sharedFrames := r.1
    profiles := r.2
    name := some "spprof profile"
    exporter := some ("spprof " ++ spprofVersion) }

/-- Truthy last-wins thread name lookup over aggregated stacks. -/
def aggThreadNameFor (sts : List AggregatedStack) (tid : Int) : String :=
  match (sts.filter
      (fun st => decide (st.thread_id = tid) && truthyName st.thread_name)).getLast? with
  | some st => (match st.thread_name with | some nm => nm | none => "")
  | none => "Thread-" ++ toString tid

/-- The per-stack loop of `aggregated_to_speedscope`: intern each stack's
frames as stored (leaf-first, no reversing), then expand `count` copies of
the index array and of the weight. -/
def internStacks (interval : Int) (fs : List FrameKey) :
    List AggregatedStack → List FrameKey × (List (List Nat) × List Int)
  | [] => (fs, ([], []))
  | st :: rest =>
    let r1 := internKeys fs (st.frames.map frameKey)
    let r2 := internStacks interval r1.1 rest
    (r2.1,
     (List.replicate st.count r1.2 ++ r2.2.1,
      List.replicate st.count (interval * 1000000) ++ r2.2.2))

/-- The per-thread loop of `aggregated_to_speedscope`. -/
def buildAggThreads (a : AggregatedProfile) :
    List FrameKey → List Int → List FrameKey × List ThreadProfile
  | fs, [] => (fs, [])
  | fs, tid :: rest =>
    let tsts := a.stacks'.filter (fun st => decide (st.thread_id = tid))
    if tsts.isEmpty then buildAggThreads a fs rest
    else
      let r1 := internStacks a.interval_ms fs tsts
      let tp : ThreadProfile :=
        { type := "sampled"
          name := aggThreadNameFor a.stacks' tid
          unit := "nanoseconds"
          startValue := 0
          endValue := r1.2.2.sum
          samples := r1.2.1
          weights := r1.2.2 }
      let r2 := buildAggThreads a r1.1 rest
      (r2.1, tp :: r2.2)

/-- `aggregated_to_speedscope(profile)`. -/
def aggregated_to_speedscope (a : AggregatedProfile) : SpeedscopeDoc :=
  let tids := dedupFirst (a.stacks'.map (·.thread_id))
  let r := buildAggThreads a [] tids
  { schema := schemaUrl
    version := "1.0.0"
    sharedFrames := r.1
    profiles := r.2
    name := some "spprof profile (aggregated)"
    exporter := some ("spprof " ++ spprofVersion) }

/-! ### Memory profiler data classes (`memprof.py`) -/

/-- `StackFrame` dataclass of `memprof.py` (renamed to avoid clashing with
the CPU `Frame`). -/
structure MStackFrame where
  address : Int
  function : String
  file : String
  line : Int
  is_python : Bool
deriving DecidableEq, Repr

/-- `FramePointerHealth` dataclass (counts as `Int`, average as `ℚ`). -/
structure FramePointerHealth where
  shallow_stack_warnings : Int
  total_native_stacks : Int
  avg_native_depth : ℚ
  min_native_depth : Int

/-- `FramePointerHealth.truncation_rate` property. -/
def FramePointerHealth.truncation_rate (h : FramePointerHealth) : ℚ :=
  if h.total_native_stacks = 0 then 0
  else (h.shallow_stack_warnings : ℚ) / (h.total_native_stacks : ℚ)

/-- `AllocationSample` dataclass. -/
structure AllocationSample where
  address : Int
  size : Int
  weight : Int
  estimated_bytes : Int
  timestamp_ns : Int
  lifetime_ns : Option Int
  stack : List MStackFrame
  gc_epoch : Int
deriving DecidableEq, Repr

/-- `AllocationSample.is_live` property: not yet freed. -/
def AllocationSample.is_live (s : AllocationSample) : Bool :=
  s.lifetime_ns.isNone

/-- `HeapSnapshot` dataclass. -/
structure HeapSnapshot where
  samples : List AllocationSample
  total_samples : Int
  live_samples : Int
  estimated_heap_bytes : Int
  timestamp_ns : Int
  frame_pointer_health : FramePointerHealth

/-- The grouping key `f"{function}:{file}:{line}"` used by both
`top_allocators` and `_save_speedscope` in `memprof.py`. -/
def sfSiteKey (f : MStackFrame) : String :=
  f.function ++ ":" ++ f.file ++ ":" ++ toString f.line

/-- The placeholder frame used below when a head is taken of a list that is
known to be nonempty. -/
def noFrame : MStackFrame := ⟨0, "", "", 0, false⟩

/-- `sample.stack[0]`'s site key (callers guard against empty stacks). -/
def sampleSiteKey (s : AllocationSample) : String :=
  sfSiteKey (s.stack.headD noFrame)

/-- A `top_allocators` result entry. -/
structure TopSite where
  function : String
  file : String
  line : Int
  estimated_bytes : Int
  sample_count : Nat
deriving DecidableEq, Repr

/-- The joined site key as a function of a result entry's reported fields
(the dict key its group was registered under). -/
def TopSite.key (site : TopSite) : String :=
  site.function ++ ":" ++ site.file ++ ":" ++ toString site.line

/-- The top frame recorded for a group: the first contributing sample's
`stack[0]` (the group is never empty when this is used). -/
def groupTop (group : List AllocationSample) : MStackFrame :=
  match group.head? with
  | some s => s.stack.headD noFrame
  | none => noFrame

/-- The `sites` dict entry for key `k`: `function/file/line` from the first
contributing sample's top frame, `estimated_bytes`/`sample_count` summed
over every sample whose top-of-stack site key is `k`. -/
def mkSite (ne : List AllocationSample) (k : String) : TopSite :=
  { function := (groupTop (ne.filter (fun s => decide (sampleSiteKey s = k)))).function
    file := (groupTop (ne.filter (fun s => decide (sampleSiteKey s = k)))).file
    line := (groupTop (ne.filter (fun s => decide (sampleSiteKey s = k)))).line
    estimated_bytes :=
      ((ne.filter (fun s => decide (sampleSiteKey s = k))).map (·.weight)).sum
    sample_count := (ne.filter (fun s => decide (sampleSiteKey s = k))).length }

/-- The order `sorted(..., key=bytes, reverse=True)` arranges sites in. -/
def siteBefore (a b : TopSite) : Prop :=
  b.estimated_bytes ≤ a.estimated_bytes

instance : DecidableRel siteBefore := fun a b =>
  inferInstanceAs (Decidable (b.estimated_bytes ≤ a.estimated_bytes))

/-- The `sites` dict of `top_allocators`, as a list in insertion order. -/
def allocationSites (snap : HeapSnapshot) : List TopSite :=
  let ne := snap.samples.filter (fun s => ! s.stack.isEmpty)
  (dedupFirst (ne.map sampleSiteKey)).map (mkSite ne)

/-- `HeapSnapshot.top_allocators(n)`. -/
def HeapSnapshot.top_allocators (snap : HeapSnapshot) (n : Nat) :
    List TopSite :=
  (List.insertionSort siteBefore (allocationSites snap)).take n

/-! ### Memory speedscope emitter (`HeapSnapshot._save_speedscope`) -/

/-- The frame-index state: the string keys seen so far and the
`{name, file, line}` entries appended for them, in parallel. -/
structure MemFrameState where
  keys : List String
  entries : List FrameKey
deriving DecidableEq, Repr

/-- One step of the frame-index build. -/
def memInternFrame (st : MemFrameState) (f : MStackFrame) : MemFrameState :=
  if sfSiteKey f ∈ st.keys then st
  else ⟨st.keys ++ [sfSiteKey f], st.entries ++ [(f.function, f.file, f.line)]⟩

/-- The frame-index build: every frame of every sample, in order. -/
def memInternAll (st : MemFrameState) (ss : List AllocationSample) :
    MemFrameState :=
  ss.foldl (fun acc s => s.stack.foldl memInternFrame acc) st

/-- The string key as a function of a stored `{name, file, line}` entry
(used to state the index invariant: keys are the entries' keys). -/
def memEntryKey (k : FrameKey) : String :=
  k.1 ++ ":" ++ k.2.1 ++ ":" ++ toString k.2.2

/-- Invariant of the frame-index build: the key list is the entry list's
keys, without duplicates. -/
def memInv (st : MemFrameState) : Prop :=
  st.keys = st.entries.map memEntryKey ∧ st.keys.Nodup

/-- A sample's index array: the stack reversed (root to leaf), each frame's
key looked up in the index (`if key in frame_index`, always true after the
first pass). -/
def memSampleIndices (keys : List String) (s : AllocationSample) : List Nat :=
  s.stack.reverse.filterMap
    (fun f => if sfSiteKey f ∈ keys then some (posOf keys (sfSiteKey f)) else none)

/-- `HeapSnapshot._save_speedscope`, up to serialization: the JSON document
written to the file. Its dict literal has no `name` and no `exporter` key. -/
def memSaveSpeedscope (snap : HeapSnapshot) : SpeedscopeDoc :=
  let st := memInternAll ⟨[], []⟩ snap.samples
  let pairs := snap.samples.filterMap (fun s =>
    let idxs := memSampleIndices st.keys s
    if idxs.isEmpty then none else some (idxs, s.weight))
  { schema := schemaUrl
    version := "0.0.1"
    sharedFrames := st.entries
    profiles := [{ type := "sampled"
                   name := "Memory Profile"
                   unit := "bytes"
                   startValue := 0
                   endValue := snap.estimated_heap_bytes
                   samples := pairs.map Prod.fst
                   weights := pairs.map Prod.snd }]
    name := none
    exporter := none }

/-! ### Memory profiler lifecycle (`memprof.py` module state) -/

/-- A raised Python exception. -/
inductive PyErr where
  | runtimeError (msg : String)
  | valueError (msg : String)
deriving DecidableEq, Repr

/-- The module globals `_initialized`, `_running`, `_shutdown`. -/
structure MemState where
  initialized : Bool
  running : Bool
  shutdown : Bool
deriving DecidableEq, Repr

/-- The initial module state. -/
def memInit : MemState := ⟨false, false, false⟩

/-- `sampling_rate_bytes = sampling_rate_kb * 1024`. -/
def samplingRateBytes (sampling_rate_kb : Int) : Int :=
  sampling_rate_kb * 1024

/-- `memprof.start(sampling_rate_kb)`: post-state plus the exception raised,
if any. The native `_memprof_init`/`_memprof_start` calls are modelled as
succeeding; all three guards run before them and leave the state untouched. -/
def memStart (st : MemState) (sampling_rate_kb : Int) :
    MemState × Option PyErr :=
  if st.shutdown then
    (st, some (.runtimeError "Cannot restart after shutdown"))
  else if st.running then
    (st, some (.runtimeError "Memory profiler is already running"))
  else if sampling_rate_kb < 1 then
    (st, some (.valueError "sampling_rate_kb must be >= 1"))
  else
    ({ st with initialized := true, running := true }, none)

/-- `memprof.stop()`: idempotent, never raises (`if not _running: return`). -/
def memStop (st : MemState) : MemState :=
  if st.running = false then st else { st with running := false }

/-- `memprof.shutdown()`: idempotent, one-way, never raises. -/
def memShutdown (st : MemState) : MemState :=
  if st.shutdown then st
  else { initialized := false, running := false, shutdown := true }

/-- States the module can reach from import time through the public
lifecycle calls. -/
inductive MemReachable : MemState → Prop where
  | init : MemReachable memInit
  | start (r : Int) : MemReachable st → MemReachable (memStart st r).1
  | stop : MemReachable st → MemReachable (memStop st)
  | shut : MemReachable st → MemReachable (memShutdown st)

/-- Parsed fields of one raw snapshot entry from the native extension
(`gc_epoch` is not forwarded by `get_snapshot` and defaults to 0). -/
structure RawEntry where
  address : Int
  size : Int
  weight : Int
  timestamp_ns : Int
  lifetime_ns : Option Int
  stack : List MStackFrame
deriving DecidableEq, Repr

/-- The `AllocationSample` that `get_snapshot` builds from a raw entry
(`estimated_bytes=entry.get('weight', 0)` — the weight is the estimate). -/
def parseSample (e : RawEntry) : AllocationSample :=
  { address := e.address
    size := e.size
    weight := e.weight
    estimated_bytes := e.weight
    timestamp_ns := e.timestamp_ns
    lifetime_ns := e.lifetime_ns
    stack := e.stack
    gc_epoch := 0 }

/-- `memprof.get_snapshot()` on a successful native call: parse the raw
entries, keep the live ones, and sum their weights. `rawTotal` models
`raw_data.get('total_samples', ...)`, `now` the wall clock, `fp` the parsed
frame-pointer health. -/
def get_snapshot (entries : List RawEntry) (rawTotal : Option Int) (now : Int)
    (fp : FramePointerHealth) : HeapSnapshot :=
  let samples := entries.map parseSample
  let live := samples.filter (fun s => s.is_live)
  { samples := live
    total_samples := rawTotal.getD (samples.length : Int)
    live_samples := (live.length : Int)
    estimated_heap_bytes := (live.map (·.weight)).sum
    timestamp_ns := now
    frame_pointer_health := fp }

/-! ### CPU profiler lifecycle (`__init__.py`, pure-Python fallback path) -/

/-- The module globals `_is_active`, `_start_time`, `_interval_ms`,
`_samples` (with `output_path=None`, so no filesystem check runs). -/
structure CpuState where
  is_active : Bool
  start_time : ℚ
  interval_ms : Int
  samples : List Sample
deriving DecidableEq, Repr

/-- The state at import time. -/
def cpuInit : CpuState := ⟨false, 0, 10, []⟩

/-- `spprof.start(interval_ms)` (pure-Python path, `output_path=None`):
post-state plus the exception raised, if any. `now` models
`datetime.now()`. -/
def cpuStart (st : CpuState) (interval_ms : Int) (now : ℚ) :
    CpuState × Option PyErr :=
  if interval_ms < 1 then
    (st, some (.valueError "interval_ms must be >= 1"))
  else if st.is_active then
    (st, some (.runtimeError "Profiler already running"))
  else
    ({ is_active := true, start_time := now, interval_ms := interval_ms,
       samples := [] }, none)

/-- `spprof.stop()` (pure-Python path): post-state, exception, and the
returned `Profile`, if any. Raises `RuntimeError` when not running. -/
def cpuStop (st : CpuState) (now : ℚ) (pyVer plat : String) :
    CpuState × Option PyErr × Option Profile :=
  if st.is_active = false then
    (st, some (.runtimeError "Profiler not running"), none)
  else
    ({ st with is_active := false, samples := [] }, none,
     some { start_time := st.start_time
            end_time := now
            interval_ms := st.interval_ms
            samples := st.samples
            dropped_count := 0
            python_version := pyVer
            platform := plat })

/-! ### Concrete inputs used by witnesses and counterexamples -/

/-- Frame `A` of the spec's collapsed round-trip scenario: bare display. -/
def exFrameA : Frame := ⟨"A", "", 0, false⟩

/-- Frame `B` of the scenario. -/
def exFrameB : Frame := ⟨"B", "", 0, false⟩

/-- Frame `C` of the scenario. -/
def exFrameC : Frame := ⟨"C", "", 0, false⟩

/-- Frame `D` of the scenario. -/
def exFrameD : Frame := ⟨"D", "", 0, false⟩

/-- A sample with leaf-first stack `[A,B,C]`. -/
def exSampleABC : Sample := ⟨0, 1, none, [exFrameA, exFrameB, exFrameC]⟩

/-- A sample with leaf-first stack `[A,B,D]`. -/
def exSampleABD : Sample := ⟨0, 1, none, [exFrameA, exFrameB, exFrameD]⟩

/-- The spec's three-sample profile `[A,B,C]`, `[A,B,C]`, `[A,B,D]`. -/
def exProfile : Profile :=
  ⟨0, 0, 10, [exSampleABC, exSampleABC, exSampleABD], 0, "3.12.0", "Linux"⟩

/-- The `[A,B,C]` sample on a second thread. -/
def exSampleT2 : Sample := ⟨0, 2, none, [exFrameA, exFrameB, exFrameC]⟩

/-- Two samples with identical display on two different threads. -/
def exTwoThreadProfile : Profile :=
  ⟨0, 0, 10, [exSampleABC, exSampleT2], 0, "3.12.0", "Linux"⟩

/-- A leaf frame for the speedscope ordering check. -/
def exLeaf : Frame := ⟨"leaf", "l.py", 1, false⟩

/-- A root frame for the speedscope ordering check. -/
def exRoot : Frame := ⟨"root", "r.py", 2, false⟩

/-- One sample whose leaf-first frames are `[leaf, root]`. -/
def exOrderProfile : Profile :=
  ⟨0, 0, 10, [⟨0, 1, none, [exLeaf, exRoot]⟩], 0, "3.12.0", "Linux"⟩

/-- Leaf frame of the memory-snapshot ordering check. -/
def exMLeaf : MStackFrame := ⟨0, "mleaf", "ml.c", 1, false⟩

/-- Root frame of the memory-snapshot ordering check. -/
def exMRoot : MStackFrame := ⟨0, "mroot", "mr.c", 2, false⟩

/-- Frame-pointer health with no native stacks. -/
def exHealth : FramePointerHealth := ⟨0, 0, 0, 0⟩

/-- A snapshot with one live sample whose leaf-first stack is
`[mleaf, mroot]`. -/
def exMemSnap : HeapSnapshot :=
  ⟨[⟨1, 100, 4096, 4096, 0, none, [exMLeaf, exMRoot], 0⟩], 1, 1, 4096, 0, exHealth⟩

/-- Two allocation samples whose top frames differ as
`(function, file, line)` triples but share the joined site key
`"a:b:c:1"`. -/
def exCollideSnap : HeapSnapshot :=
  ⟨[⟨1, 10, 10, 10, 0, none, [⟨0, "a:b", "c", 1, false⟩], 0⟩,
    ⟨2, 20, 20, 20, 0, none, [⟨0, "a", "b:c", 1, false⟩], 0⟩],
   2, 2, 30, 0, exHealth⟩

/-- A live raw snapshot entry. -/
def exEntryLive : RawEntry := ⟨1, 8, 16, 5, none, []⟩

/-- A freed raw snapshot entry. -/
def exEntryFreed : RawEntry := ⟨2, 8, 16, 5, some 3, []⟩

/-- An empty profile of zero duration. -/
def exEmptyProfile : Profile := ⟨0, 0, 10, [], 0, "3.12.0", "Linux"⟩

/-- A one-sample profile spanning two seconds. -/
def exRateProfile : Profile := ⟨0, 2, 10, [exSampleABC], 0, "3.12.0", "Linux"⟩

/-! ## Helper lemmas -/

theorem charsLt_asymm (as : List Char) :
    ∀ bs, charsLt as bs = true → charsLt bs as = false := by
  induction as with
  | nil =>
    intro bs h
    cases bs with
    | nil => simp [charsLt] at h
    | cons b bs => simp [charsLt]
  | cons a as ih =>
    intro bs h
    cases bs with
    | nil => simp [charsLt] at h
    | cons b bs =>
      simp only [charsLt] at h ⊢
      by_cases h1 : a.toNat < b.toNat
      · have h2 : ¬ b.toNat < a.toNat := Nat.lt_asymm h1
        simp [h1, h2]
      · by_cases h2 : b.toNat < a.toNat
        · simp [h1, h2] at h
        · simp only [h1, h2, if_false] at h ⊢
          exact ih bs h

theorem charsLt_eq_of_both_not (as : List Char) :
    ∀ bs, charsLt as bs = false → charsLt bs as = false → as = bs := by
  induction as with
  | nil =>
    intro bs h _
    cases bs with
    | nil => rfl
    | cons b bs => simp [charsLt] at h
  | cons a as ih =>
    intro bs h h'
    cases bs with
    | nil => simp [charsLt] at h'
    | cons b bs =>
      simp only [charsLt] at h h'
      by_cases h1 : a.toNat < b.toNat
      · simp [h1] at h
      · by_cases h2 : b.toNat < a.toNat
        · simp [h2] at h'
        · simp only [h1, h2, if_neg, if_false] at h h'
          have hab : a = b :=
            Char.ext (UInt32.ext (Nat.le_antisymm (Nat.not_lt.mp h2) (Nat.not_lt.mp h1)))
          rw [hab, ih bs h h']

theorem charsLt_trans (as : List Char) :
    ∀ bs cs, charsLt as bs = true → charsLt bs cs = true → charsLt as cs = true := by
  induction as with
  | nil =>
    intro bs cs h h'
    cases cs with
    | nil =>
      cases bs with
      | nil => simp [charsLt] at h
      | cons b bs => simp [charsLt] at h'
    | cons c cs => simp [charsLt]
  | cons a as ih =>
    intro bs cs h h'
    cases bs with
    | nil => simp [charsLt] at h
    | cons b bs =>
      cases cs with
      | nil => simp [charsLt] at h'
      | cons c cs =>
        simp only [charsLt] at h h' ⊢
        by_cases hab1 : a.toNat < b.toNat
        · by_cases hbc1 : b.toNat < c.toNat
          · simp [Nat.lt_trans hab1 hbc1]
          · by_cases hbc2 : c.toNat < b.toNat
            · simp [hbc1, hbc2] at h'
            · have hbc : b.toNat = c.toNat :=
                Nat.le_antisymm (Nat.not_lt.mp hbc2) (Nat.not_lt.mp hbc1)
              simp [← hbc, hab1]
        · by_cases hab2 : b.toNat < a.toNat
          · simp [hab1, hab2] at h
          · have hab : a.toNat = b.toNat :=
              Nat.le_antisymm (Nat.not_lt.mp hab2) (Nat.not_lt.mp hab1)
            by_cases hbc1 : b.toNat < c.toNat
            · have hac1 : a.toNat < c.toNat := hab ▸ hbc1
              simp [hac1]
            · by_cases hbc2 : c.toNat < b.toNat
              · simp [hbc1, hbc2] at h'
              · have hbc : b.toNat = c.toNat :=
                  Nat.le_antisymm (Nat.not_lt.mp hbc2) (Nat.not_lt.mp hbc1)
                have hac : a.toNat = c.toNat := hab.trans hbc
                have hac1 : ¬ a.toNat < c.toNat := by simp [hac]
                have hac2 : ¬ c.toNat < a.toNat := by simp [hac]
                simp only [if_neg hac1, if_neg hac2]
                exact ih bs cs
                  (by simpa [if_neg hab1, if_neg hab2] using h)
                  (by simpa [if_neg hbc1, if_neg hbc2] using h')

theorem strLe_total (a b : String) : strLe a b ∨ strLe b a := by
  unfold strLe pyStrLe
  cases h : charsLt b.data a.data with
  | false => left; simp [h]
  | true => right; simp [charsLt_asymm _ _ h]

theorem strLe_trans {a b c : String} (hab : strLe a b) (hbc : strLe b c) :
    strLe a c := by
  unfold strLe pyStrLe at hab hbc ⊢
  rw [Bool.not_eq_true'] at hab hbc ⊢
  cases hca : charsLt c.data a.data with
  | false => rfl
  | true =>
    exfalso
    cases hbc2 : charsLt b.data c.data with
    | true =>
      exact absurd (charsLt_trans b.data c.data a.data hbc2 hca) (by simp [hab])
    | false =>
      have hcb : c.data = b.data := charsLt_eq_of_both_not c.data b.data hbc hbc2
      rw [hcb] at hca
      exact absurd hca (by simp [hab])

theorem pairwise_orderedInsert {α : Type} (r : α → α → Prop) [DecidableRel r]
    (htot : ∀ a b, r a b ∨ r b a) (htr : ∀ {a b c}, r a b → r b c → r a c)
    (a : α) (l : List α) (h : l.Pairwise r) :
    (List.orderedInsert r a l).Pairwise r := by
  induction l with
  | nil => simp
  | cons b t ih =>
    rw [List.orderedInsert]
    by_cases hab : r a b
    · rw [if_pos hab]
      refine List.Pairwise.cons ?_ h
      intro x hx
      rcases List.mem_cons.mp hx with hxb | hxt
      · exact hxb ▸ hab
      · exact htr hab ((List.pairwise_cons.mp h).1 x hxt)
    · rw [if_neg hab]
      have hba : r b a := (htot a b).resolve_left hab
      refine List.Pairwise.cons ?_ (ih (List.pairwise_cons.mp h).2)
      intro x hx
      rcases (List.mem_orderedInsert r).mp hx with hxa | hxt
      · exact hxa ▸ hba
      · exact (List.pairwise_cons.mp h).1 x hxt

theorem pairwise_insertionSort {α : Type} (r : α → α → Prop) [DecidableRel r]
    (htot : ∀ a b, r a b ∨ r b a) (htr : ∀ {a b c}, r a b → r b c → r a c)
    (l : List α) : (List.insertionSort r l).Pairwise r := by
  induction l with
  | nil => simp
  | cons a t ih =>
    rw [List.insertionSort]
    exact pairwise_orderedInsert r htot (fun h1 h2 => htr h1 h2) a _ ih

theorem mem_foldl_insertDistinct {α : Type} [DecidableEq α] (l : List α) :
    ∀ (acc : List α) (y : α),
      y ∈ l.foldl insertDistinct acc ↔ y ∈ acc ∨ y ∈ l := by
  induction l with
  | nil => intro acc y; simp
  | cons a t ih =>
    intro acc y
    rw [List.foldl_cons, ih]
    unfold insertDistinct
    by_cases ha : a ∈ acc
    · rw [if_pos ha]
      constructor
      · rintro (hy | hy)
        · exact Or.inl hy
        · exact Or.inr (List.mem_cons_of_mem a hy)
      · rintro (hy | hy)
        · exact Or.inl hy
        · rcases List.mem_cons.mp hy with hy | hy
          · exact Or.inl (hy ▸ ha)
          · exact Or.inr hy
    · rw [if_neg ha]
      simp only [List.mem_append, List.mem_singleton, List.mem_cons]
      tauto

theorem nodup_foldl_insertDistinct {α : Type} [DecidableEq α] (l : List α) :
    ∀ acc : List α, acc.Nodup → (l.foldl insertDistinct acc).Nodup := by
  induction l with
  | nil => intro acc h; simpa using h
  | cons a t ih =>
    intro acc h
    rw [List.foldl_cons]
    refine ih _ ?_
    unfold insertDistinct
    by_cases ha : a ∈ acc
    · rwa [if_pos ha]
    · rw [if_neg ha]
      simp [List.nodup_append, h, ha]

theorem mem_dedupFirst {α : Type} [DecidableEq α] {l : List α} {y : α} :
    y ∈ dedupFirst l ↔ y ∈ l := by
  unfold dedupFirst
  rw [mem_foldl_insertDistinct]
  simp

theorem nodup_dedupFirst {α : Type} [DecidableEq α] (l : List α) :
    (dedupFirst l).Nodup :=
  nodup_foldl_insertDistinct l [] List.nodup_nil

theorem length_foldl_insertDistinct {α : Type} [DecidableEq α] (l : List α) :
    ∀ acc : List α,
      (l.foldl insertDistinct acc).length ≤ acc.length + l.length := by
  induction l with
  | nil => intro acc; simp
  | cons a t ih =>
    intro acc
    rw [List.foldl_cons]
    refine le_trans (ih _) ?_
    unfold insertDistinct
    by_cases ha : a ∈ acc
    · rw [if_pos ha]
      have h2 : (a :: t).length = t.length + 1 := rfl
      omega
    · rw [if_neg ha]
      have h1 : (acc ++ [a]).length = acc.length + 1 := by simp
      have h2 : (a :: t).length = t.length + 1 := rfl
      omega

theorem length_dedupFirst_le {α : Type} [DecidableEq α] (l : List α) :
    (dedupFirst l).length ≤ l.length := by
  have := length_foldl_insertDistinct l []
  simpa using this

theorem sum_map_ite_zero {κ : Type} [DecidableEq κ] (keys : List κ) (k0 : κ)
    (h : k0 ∉ keys) :
    (keys.map (fun k => if k0 = k then (1 : ℕ) else 0)).sum = 0 := by
  induction keys with
  | nil => rfl
  | cons k t ih =>
    have hk : k0 ≠ k := fun he => h (he ▸ List.mem_cons_self k t)
    have ht : k0 ∉ t := fun hm => h (List.mem_cons_of_mem k hm)
    simp [hk, ih ht]

theorem sum_map_ite_one {κ : Type} [DecidableEq κ] (keys : List κ) (k0 : κ)
    (hnd : keys.Nodup) (hm : k0 ∈ keys) :
    (keys.map (fun k => if k0 = k then (1 : ℕ) else 0)).sum = 1 := by
  induction keys with
  | nil => cases hm
  | cons k t ih =>
    rcases List.mem_cons.mp hm with hk | ht
    · subst hk
      have hnt : k0 ∉ t := (List.nodup_cons.mp hnd).1
      simp [sum_map_ite_zero t k0 hnt]
    · have hk : k0 ≠ k := by
        intro he
        exact (List.nodup_cons.mp hnd).1 (he ▸ ht)
      simp [hk, ih (List.nodup_cons.mp hnd).2 ht]

theorem sum_counts {α κ : Type} [DecidableEq κ] (l : List α) (f : α → κ) :
    ∀ keys : List κ, keys.Nodup → (∀ a ∈ l, f a ∈ keys) →
      (keys.map (fun k => l.countP (fun a => decide (f a = k)))).sum
        = l.length := by
  induction l with
  | nil =>
    intro keys _ _
    simp [List.countP_nil]
  | cons a t ih =>
    intro keys hnd hmem
    have h1 : keys.map (fun k => (a :: t).countP (fun x => decide (f x = k)))
        = keys.map (fun k =>
            t.countP (fun x => decide (f x = k)) + if f a = k then (1 : ℕ) else 0) := by
      simp only [List.countP_cons, decide_eq_true_eq]
    rw [h1, List.sum_map_add, ih keys hnd (fun x hx => hmem x (List.mem_cons_of_mem a hx)),
      sum_map_ite_one keys (f a) hnd (hmem a (List.mem_cons_self a t))]
    simp

theorem countP_pos_of_mem_map {α κ : Type} [DecidableEq κ] {l : List α}
    {f : α → κ} {k : κ} (h : k ∈ l.map f) :
    0 < l.countP (fun a => decide (f a = k)) := by
  rcases List.mem_map.mp h with ⟨a, ha, hfa⟩
  exact List.countP_pos_iff.mpr ⟨a, ha, by simp [hfa]⟩

theorem internFrame_nodup (fs : List FrameKey) (k : FrameKey)
    (h : fs.Nodup) : ((internFrame fs k).1).Nodup := by
  unfold internFrame
  by_cases hk : k ∈ fs
  · rwa [if_pos hk]
  · rw [if_neg hk]
    simp [List.nodup_append, h, hk]

theorem internKeys_nodup (ks : List FrameKey) :
    ∀ fs : List FrameKey, fs.Nodup → ((internKeys fs ks).1).Nodup := by
  induction ks with
  | nil => intro fs h; exact h
  | cons k t ih =>
    intro fs h
    exact ih (internFrame fs k).1 (internFrame_nodup fs k h)

theorem internSamples_nodup (ss : List Sample) :
    ∀ fs : List FrameKey, fs.Nodup → ((internSamples fs ss).1).Nodup := by
  induction ss with
  | nil => intro fs h; exact h
  | cons s t ih =>
    intro fs h
    exact ih _ (internKeys_nodup (s.frames.map frameKey) fs h)

theorem internStacks_nodup (interval : Int) (sts : List AggregatedStack) :
    ∀ fs : List FrameKey, fs.Nodup →
      ((internStacks interval fs sts).1).Nodup := by
  induction sts with
  | nil => intro fs h; exact h
  | cons st t ih =>
    intro fs h
    exact ih _ (internKeys_nodup (st.frames.map frameKey) fs h)

theorem buildThreads_nodup (p : Profile) (tids : List Int) :
    ∀ fs : List FrameKey, fs.Nodup → ((buildThreads p fs tids).1).Nodup := by
  induction tids with
  | nil => intro fs h; exact h
  | cons tid rest ih =>
    intro fs h
    rw [buildThreads]
    split
    · exact ih fs h
    · exact ih _ (internSamples_nodup _ fs h)

theorem buildAggThreads_nodup (a : AggregatedProfile) (tids : List Int) :
    ∀ fs : List FrameKey, fs.Nodup →
      ((buildAggThreads a fs tids).1).Nodup := by
  induction tids with
  | nil => intro fs h; exact h
  | cons tid rest ih =>
    intro fs h
    rw [buildAggThreads]
    split
    · exact ih fs h
    · exact ih _ (internStacks_nodup _ _ fs h)

theorem memInternFrame_inv (st : MemFrameState) (f : MStackFrame)
    (h : memInv st) : memInv (memInternFrame st f) := by
  obtain ⟨h1, h2⟩ := h
  unfold memInternFrame
  by_cases hk : sfSiteKey f ∈ st.keys
  · rw [if_pos hk]; exact ⟨h1, h2⟩
  · rw [if_neg hk]
    constructor
    · simp only [List.map_append, ← h1]
      rfl
    · simp [List.nodup_append, h2, hk]

theorem memInternStack_inv (fsL : List MStackFrame) :
    ∀ st : MemFrameState, memInv st → memInv (fsL.foldl memInternFrame st) := by
  induction fsL with
  | nil => intro st h; exact h
  | cons f t ih =>
    intro st h
    exact ih _ (memInternFrame_inv st f h)

theorem memInternAll_inv (ss : List AllocationSample) :
    ∀ st : MemFrameState, memInv st → memInv (memInternAll st ss) := by
  induction ss with
  | nil => intro st h; exact h
  | cons s t ih =>
    intro st h
    exact ih _ (memInternStack_inv s.stack st h)

/-! ## Claim theorems -/

/-- Claim C5: for every profile `p`, the aggregated profile conserves
samples — the counts over `stacks` sum to the number of samples,
`total_samples` equals `sample_count`, there are at most as many unique
stacks as samples, and every count is positive. -/
theorem c5_aggregate_conserves (p : Profile) :
    ((p.aggregate.stacks').map (·.count)).sum = p.samples.length
    ∧ p.aggregate.total_samples = p.sample_count
    ∧ p.aggregate.unique_stack_count ≤ p.samples.length
    ∧ ∀ st ∈ p.aggregate.stacks', 0 < st.count := by
  have hstacks : p.aggregate.stacks'
      = (dedupFirst (p.samples.map sampleKey)).map (fun k =>
          { frames := k.frames, thread_id := k.thread_id,
            thread_name := k.thread_name,
            count := keyCount p.samples k }) := rfl
  refine ⟨?_, rfl, ?_, ?_⟩
  · rw [hstacks, List.map_map]
    have hcomp : ((fun st : AggregatedStack => st.count) ∘ fun k : StackTrace =>
        ({ frames := k.frames, thread_id := k.thread_id,
           thread_name := k.thread_name,
           count := keyCount p.samples k } : AggregatedStack))
        = fun k => p.samples.countP (fun s => decide (sampleKey s = k)) := rfl
    rw [hcomp]
    exact sum_counts p.samples sampleKey _ (nodup_dedupFirst _)
      (fun s hs => mem_dedupFirst.mpr (List.mem_map_of_mem sampleKey hs))
  · show (p.aggregate.stacks').length ≤ _
    rw [hstacks, List.length_map]
    calc (dedupFirst (p.samples.map sampleKey)).length
        ≤ (p.samples.map sampleKey).length := length_dedupFirst_le _
      _ = p.samples.length := List.length_map _ _
  · intro st hst
    rw [hstacks] at hst
    rcases List.mem_map.mp hst with ⟨k, hk, rfl⟩
    exact countP_pos_of_mem_map (mem_dedupFirst.mp hk)

/-- Witness for C5: on the spec's three-sample profile the counts sum to 3
and every stack has positive count. -/
theorem c5_witness :
    ((exProfile.aggregate.stacks').map (·.count)).sum = 3
    ∧ 0 < (AggregatedStack.mk [exFrameA, exFrameB, exFrameC] 1 none 2).count := by
  constructor
  · rw [(c5_aggregate_conserves exProfile).1]
    rfl
  · exact (c5_aggregate_conserves exProfile).2.2.2
      ⟨[exFrameA, exFrameB, exFrameC], 1, none, 2⟩ (by decide)

/-- Claim C6: every successful `memprof.get_snapshot()` returns only live
records, with `live_samples` the length of `samples` and
`estimated_heap_bytes` the sum of the live samples' weights. -/
theorem c6_snapshot_live (entries : List RawEntry) (rawTotal : Option Int)
    (now : Int) (fp : FramePointerHealth) :
    (∀ s ∈ (get_snapshot entries rawTotal now fp).samples, s.is_live = true)
    ∧ (get_snapshot entries rawTotal now fp).live_samples
        = ((get_snapshot entries rawTotal now fp).samples.length : Int)
    ∧ (get_snapshot entries rawTotal now fp).estimated_heap_bytes
        = (((get_snapshot entries rawTotal now fp).samples).map (·.weight)).sum := by
  refine ⟨?_, rfl, rfl⟩
  intro s hs
  have hmem : s ∈ (entries.map parseSample).filter (fun s => s.is_live) := hs
  exact (List.mem_filter.mp hmem).2

/-- Witness for C6: on a concrete two-entry snapshot (one live, one freed),
the returned sample is live and `live_samples` is 1. -/
theorem c6_witness :
    (parseSample exEntryLive).is_live = true
    ∧ (get_snapshot [exEntryLive, exEntryFreed] none 0 exHealth).live_samples = 1 :=
  ⟨(c6_snapshot_live [exEntryLive, exEntryFreed] none 0 exHealth).1
      (parseSample exEntryLive) (by decide),
   by decide⟩

/-- Claim C9: every derived ratio guards its division — each returns its
documented constant when the denominator-driving quantity is zero (or the
duration is not positive), and otherwise divides by a provably nonzero
denominator. -/
theorem c9_division_guards :
    (∀ p : Profile,
      (p.total_duration_ms / 1000 ≤ 0 → p.effective_rate_hz = 0)
      ∧ (¬ p.total_duration_ms / 1000 ≤ 0 →
          p.total_duration_ms / 1000 ≠ 0
          ∧ p.effective_rate_hz
              = (p.sample_count : ℚ) / (p.total_duration_ms / 1000)))
    ∧ (∀ a : AggregatedProfile,
      (a.unique_stack_count = 0 → a.compression_ratio = 1)
      ∧ (a.unique_stack_count ≠ 0 → (a.unique_stack_count : ℚ) ≠ 0
          ∧ a.compression_ratio
              = (a.total_samples : ℚ) / (a.unique_stack_count : ℚ)))
    ∧ (∀ a : AggregatedProfile,
      (a.total_samples = 0 → a.memory_reduction_pct = 0)
      ∧ (a.total_samples ≠ 0 → (a.total_samples : ℚ) ≠ 0
          ∧ a.memory_reduction_pct
              = (1 - (a.unique_stack_count : ℚ) / (a.total_samples : ℚ)) * 100))
    ∧ (∀ h : FramePointerHealth,
      (h.total_native_stacks = 0 → h.truncation_rate = 0)
      ∧ (h.total_native_stacks ≠ 0 → (h.total_native_stacks : ℚ) ≠ 0
          ∧ h.truncation_rate
              = (h.shallow_stack_warnings : ℚ) / (h.total_native_stacks : ℚ))) := by
  refine ⟨fun p => ⟨?_, ?_⟩, fun a => ⟨?_, ?_⟩, fun a => ⟨?_, ?_⟩,
    fun h => ⟨?_, ?_⟩⟩
  · intro hle
    show (if p.total_duration_ms / 1000 ≤ 0 then (0 : ℚ)
          else (p.sample_count : ℚ) / (p.total_duration_ms / 1000)) = 0
    rw [if_pos hle]
  · intro hgt
    refine ⟨fun h0 => hgt (le_of_eq h0), ?_⟩
    show (if p.total_duration_ms / 1000 ≤ 0 then (0 : ℚ)
          else (p.sample_count : ℚ) / (p.total_duration_ms / 1000)) = _
    rw [if_neg hgt]
  · intro h0
    unfold AggregatedProfile.compression_ratio
    rw [if_pos h0]
  · intro hne
    refine ⟨Nat.cast_ne_zero.mpr hne, ?_⟩
    unfold AggregatedProfile.compression_ratio
    rw [if_neg hne]
  · intro h0
    unfold AggregatedProfile.memory_reduction_pct
    rw [if_pos h0]
  · intro hne
    refine ⟨Nat.cast_ne_zero.mpr hne, ?_⟩
    unfold AggregatedProfile.memory_reduction_pct
    rw [if_neg hne]
  · intro h0
    unfold FramePointerHealth.truncation_rate
    rw [if_pos h0]
  · intro hne
    refine ⟨Int.cast_ne_zero.mpr hne, ?_⟩
    unfold FramePointerHealth.truncation_rate
    rw [if_neg hne]

/-- Witness for C9: a zero-duration profile reports rate 0, a health record
with no native stacks reports truncation 0, and a two-second profile's
divisor is nonzero. -/
theorem c9_witness :
    exEmptyProfile.effective_rate_hz = 0
    ∧ exHealth.truncation_rate = 0
    ∧ exRateProfile.total_duration_ms / 1000 ≠ 0 := by
  refine ⟨(c9_division_guards.1 exEmptyProfile).1 ?_,
    (c9_division_guards.2.2.2 exHealth).1 rfl,
    ((c9_division_guards.1 exRateProfile).2 ?_).1⟩
  · norm_num [Profile.total_duration_ms, exEmptyProfile]
  · norm_num [Profile.total_duration_ms, exRateProfile]

/-- Claim C10: `Profile.aggregate` leaves the receiver unchanged and copies
`start_time`, `end_time`, `interval_ms`, `dropped_count`, `python_version`,
and `platform` verbatim into the aggregated profile. -/
theorem c10_aggregate_preserves_metadata (p : Profile) :
    p.aggregateRun.2 = p
    ∧ p.aggregate.start_time = p.start_time
    ∧ p.aggregate.end_time = p.end_time
    ∧ p.aggregate.interval_ms = p.interval_ms
    ∧ p.aggregate.dropped_count = p.dropped_count
    ∧ p.aggregate.python_version = p.python_version
    ∧ p.aggregate.platform = p.platform :=
  ⟨rfl, rfl, rfl, rfl, rfl, rfl, rfl⟩

/-- In every reachable memory-profiler state, running implies not shut
down (`shutdown()` always clears `_running`). -/
theorem memReachable_running_not_shutdown {st : MemState}
    (h : MemReachable st) : st.running = true → st.shutdown = false := by
  induction h with
  | init => intro h; simp [memInit] at h
  | start r _ ih =>
    rename_i st' _
    by_cases h1 : st'.shutdown = true
    · simpa only [memStart, if_pos h1] using ih
    · by_cases h2 : st'.running = true
      · simpa only [memStart, if_neg h1, if_pos h2] using ih
      · by_cases h3 : r < 1
        · simpa only [memStart, if_neg h1, if_neg h2, if_pos h3] using ih
        · simp only [memStart, if_neg h1, if_neg h2, if_neg h3]
          intro _
          simpa using h1
  | stop _ ih =>
    rename_i st' _
    by_cases h1 : st'.running = false
    · simpa only [memStop, if_pos h1] using ih
    · simp only [memStop, if_neg h1]
      intro _
      exact ih (by simpa using h1)
  | shut _ ih =>
    rename_i st' _
    by_cases h1 : st'.shutdown = true
    · simpa only [memShutdown, if_pos h1] using ih
    · simp only [memShutdown, if_neg h1]
      intro h
      simp at h

/-- Claim C7 (confirmed): `memprof.start` enforces the lifecycle — after
`shutdown()` it raises `RuntimeError` and the shutdown flag can never be
cleared again by any lifecycle call; a second `start()` while running (in
any reachable state) raises `RuntimeError` with the "already running"
message; and a `sampling_rate_kb < 1` (equivalently a byte rate below 1024)
raises `ValueError` with the state untouched. -/
theorem c7_memStart_lifecycle :
    (∀ (st : MemState) (r : Int), st.shutdown = true →
        memStart st r = (st, some (.runtimeError "Cannot restart after shutdown")))
    ∧ (∀ st : MemState, st.shutdown = true →
        (∀ r : Int, ((memStart st r).1).shutdown = true)
        ∧ (memStop st).shutdown = true
        ∧ (memShutdown st).shutdown = true)
    ∧ (∀ st : MemState, MemReachable st → st.running = true →
        ∀ r : Int, memStart st r
          = (st, some (.runtimeError "Memory profiler is already running")))
    ∧ (∀ (st : MemState) (r : Int), st.shutdown = false → st.running = false →
        r < 1 →
        memStart st r = (st, some (.valueError "sampling_rate_kb must be >= 1")))
    ∧ (∀ r : Int, samplingRateBytes r < 1024 ↔ r < 1) := by
  refine ⟨?_, ?_, ?_, ?_, ?_⟩
  · intro st r h
    simp only [memStart, if_pos h]
  · intro st h
    refine ⟨?_, ?_, ?_⟩
    · intro r
      rw [(by simp only [memStart, if_pos h] :
        memStart st r = (st, some (.runtimeError "Cannot restart after shutdown")))]
      exact h
    · unfold memStop
      split
      · exact h
      · exact h
    · unfold memShutdown
      rw [if_pos h]
      exact h
  · intro st hreach hrun r
    have hshut : st.shutdown = false := memReachable_running_not_shutdown hreach hrun
    simp only [memStart, hshut, hrun]
    rfl
  · intro st r hshut hrun hr
    simp only [memStart, hshut, hrun, if_pos hr]
    rfl
  · intro r
    unfold samplingRateBytes
    omega

/-- Witness for C7: concrete instances of all three refusals — start after
shutdown, double start while running (via a reachable run), and a zero
sampling rate. -/
theorem c7_witness :
    memStart ⟨false, false, true⟩ 512
      = (⟨false, false, true⟩, some (.runtimeError "Cannot restart after shutdown"))
    ∧ memStart ⟨true, true, false⟩ 512
      = (⟨true, true, false⟩,
         some (.runtimeError "Memory profiler is already running"))
    ∧ memStart memInit 0
      = (memInit, some (.valueError "sampling_rate_kb must be >= 1")) := by
  have hreach : MemReachable (⟨true, true, false⟩ : MemState) :=
    MemReachable.start 512 MemReachable.init
  exact ⟨c7_memStart_lifecycle.1 ⟨false, false, true⟩ 512 rfl,
    c7_memStart_lifecycle.2.2.1 ⟨true, true, false⟩ hreach rfl 512,
    c7_memStart_lifecycle.2.2.2.1 memInit 0 rfl rfl (by decide)⟩

/-- Claim C2 counterexample: the claim "double-stop is a no-op for both
profilers" is false for the CPU profiler — in the reachable run
start, stop, stop the second `stop()` raises
`RuntimeError("Profiler not running")`. -/
theorem c2_cex :
    (cpuStart cpuInit 10 0).2 = none
    ∧ (cpuStop (cpuStart cpuInit 10 0).1 1 "3.12.0" "Linux").2.1 = none
    ∧ (cpuStop (cpuStop (cpuStart cpuInit 10 0).1 1 "3.12.0" "Linux").1
        2 "3.12.0" "Linux").2.1
      = some (.runtimeError "Profiler not running") :=
  ⟨rfl, rfl, rfl⟩

/-- Claim C2 as amended: `memprof.stop` and `memprof.shutdown` are
idempotent (the second consecutive call changes nothing and raises
nothing), while CPU `stop()` raises `RuntimeError("Profiler not running")`
whenever the profiler is not running, leaving the state unchanged — so a
CPU double-stop raises on the second call. -/
theorem c2_double_stop :
    (∀ st : MemState, memStop (memStop st) = memStop st)
    ∧ (∀ st : MemState, memShutdown (memShutdown st) = memShutdown st)
    ∧ (∀ (st : CpuState) (now : ℚ) (pyVer plat : String),
        st.is_active = false →
        cpuStop st now pyVer plat
          = (st, some (.runtimeError "Profiler not running"), none)) := by
  refine ⟨?_, ?_, ?_⟩
  · intro st
    unfold memStop
    by_cases h : st.running = false
    · rw [if_pos h, if_pos h]
    · rw [if_neg h]
      rfl
  · intro st
    unfold memShutdown
    by_cases h : st.shutdown = true
    · rw [if_pos h, if_pos h]
    · rw [if_neg h]
      rfl
  · intro st now pyVer plat h
    unfold cpuStop
    rw [if_pos h]

/-- Witness for C2: the amended statement applied after an actual
start-stop run — the stopped state is inactive and the second stop raises. -/
theorem c2_witness :
    cpuStop (cpuStop (cpuStart cpuInit 10 0).1 1 "3.12.0" "Linux").1
        2 "3.12.0" "Linux"
      = ((cpuStop (cpuStart cpuInit 10 0).1 1 "3.12.0" "Linux").1,
         some (.runtimeError "Profiler not running"), none) :=
  c2_double_stop.2.2 (cpuStop (cpuStart cpuInit 10 0).1 1 "3.12.0" "Linux").1
    2 "3.12.0" "Linux" rfl

/-- Claim C1 counterexample: on the spec's own three-sample scenario the
collapsed output carries no trailing newline, so it differs from the
claimed string; and on two identical-display stacks from two threads the
aggregated path emits two un-summed lines, so identical displays are not
summed on that path. -/
theorem c1_cex :
    to_collapsed exProfile true = "C;B;A 2\nD;B;A 1"
    ∧ "C;B;A 2\nD;B;A 1" ≠ "C;B;A 2\nD;B;A 1\n"
    ∧ aggregated_to_collapsed (exTwoThreadProfile.aggregate) true
        = "C;B;A 1\nC;B;A 1" :=
  ⟨by decide, by decide, by decide⟩

/-- Claim C1 as amended: `to_collapsed` emits one line per unique display
stack (root-to-leaf), with the count summing all samples of identical
display, ordered lexicographically by display stack, joined by newlines
with no trailing newline — on the three-sample scenario the output is
`"C;B;A 2\nD;B;A 1"`. The aggregated path emits one sorted line per
aggregated (frames, thread) stack with its count — without merging
identical displays across aggregated stacks — and agrees on the
(single-thread) scenario. -/
theorem c1_collapsed :
    (∀ (mark : Bool) (ss : List Sample),
        ((collapsedEntries mark ss).map Prod.fst).Pairwise strLe
        ∧ ((collapsedEntries mark ss).map Prod.fst).Nodup)
    ∧ (∀ (mark : Bool) (ss : List Sample) (k : String) (c : Nat),
        (k, c) ∈ collapsedEntries mark ss →
        c = collapsedCount mark ss k ∧ 0 < c)
    ∧ (∀ (mark : Bool) (ss : List Sample) (s : Sample),
        s ∈ ss → s.frames ≠ [] →
        sampleStackStr mark s ∈ (collapsedEntries mark ss).map Prod.fst)
    ∧ (∀ (mark : Bool) (a : AggregatedProfile),
        (aggCollapsedLines mark a).Pairwise strLe
        ∧ ∀ st ∈ a.stacks', st.frames ≠ [] →
            (stackDisplay mark st ++ " " ++ toString st.count)
              ∈ aggCollapsedLines mark a)
    ∧ to_collapsed exProfile true = "C;B;A 2\nD;B;A 1"
    ∧ aggregated_to_collapsed (exProfile.aggregate) true
        = "C;B;A 2\nD;B;A 1" := by
  have hfst : ∀ (mark : Bool) (ss : List Sample),
      (collapsedEntries mark ss).map Prod.fst
        = List.insertionSort strLe (collapsedKeys mark ss) := by
    intro mark ss
    unfold collapsedEntries
    rw [List.map_map]
    have hcomp : (Prod.fst ∘ fun k : String => (k, collapsedCount mark ss k)) = id := rfl
    rw [hcomp, List.map_id]
  refine ⟨?_, ?_, ?_, ?_, by decide, by decide⟩
  · intro mark ss
    rw [hfst]
    constructor
    · exact pairwise_insertionSort strLe strLe_total
        (fun hab hbc => strLe_trans hab hbc) _
    · exact ((List.perm_insertionSort strLe _).symm).nodup
        (nodup_dedupFirst _)
  · intro mark ss k c h
    rcases List.mem_map.mp h with ⟨k', hk', heq⟩
    rw [Prod.mk.injEq] at heq
    obtain ⟨hk, hc⟩ := heq
    subst hk
    refine ⟨hc.symm, ?_⟩
    rw [← hc]
    have hmem : k' ∈ collapsedKeys mark ss :=
      (List.perm_insertionSort strLe _).mem_iff.mp hk'
    exact countP_pos_of_mem_map (mem_dedupFirst.mp hmem)
  · intro mark ss s hs hne
    rw [hfst]
    refine (List.perm_insertionSort strLe _).mem_iff.mpr ?_
    refine mem_dedupFirst.mpr ?_
    refine List.mem_map_of_mem _ ?_
    refine List.mem_filter.mpr ⟨hs, ?_⟩
    cases hf : s.frames with
    | nil => exact absurd hf hne
    | cons a t => rfl
  · intro mark a
    constructor
    · exact pairwise_insertionSort strLe strLe_total
        (fun hab hbc => strLe_trans hab hbc) _
    · intro st hst hne
      refine (List.perm_insertionSort strLe _).mem_iff.mpr ?_
      refine List.mem_map_of_mem _ ?_
      refine List.mem_filter.mpr ⟨hst, ?_⟩
      cases hf : st.frames with
      | nil => exact absurd hf hne
      | cons a' t => rfl

/-- Witness for C1: the `C;B;A` line of the scenario carries the summed
count 2, and the scenario's samples are covered by the emitted lines. -/
theorem c1_witness :
    ((2 : Nat) = collapsedCount true exProfile.samples "C;B;A" ∧ 0 < 2)
    ∧ sampleStackStr true exSampleABD
        ∈ (collapsedEntries true exProfile.samples).map Prod.fst :=
  ⟨c1_collapsed.2.1 true exProfile.samples "C;B;A" 2 (by decide),
   c1_collapsed.2.2.1 true exProfile.samples exSampleABD (by decide)
     (by decide)⟩

/-- A site built for a key actually present among the samples reports
fields whose joined key is that key. -/
theorem mkSite_key (ne : List AllocationSample) (k : String)
    (hk : k ∈ ne.map sampleSiteKey) : (mkSite ne k).key = k := by
  rcases List.mem_map.mp hk with ⟨s, hs, hks⟩
  have hsg : s ∈ ne.filter (fun x => decide (sampleSiteKey x = k)) :=
    List.mem_filter.mpr ⟨hs, by simp [hks]⟩
  cases hg : (ne.filter (fun x => decide (sampleSiteKey x = k))).head? with
  | none =>
    rw [List.head?_eq_none_iff] at hg
    rw [hg] at hsg
    cases hsg
  | some s0 =>
    have hs0 : s0 ∈ ne.filter (fun x => decide (sampleSiteKey x = k)) :=
      List.mem_of_mem_head? hg
    have hkey : sampleSiteKey s0 = k :=
      of_decide_eq_true (List.mem_filter.mp hs0).2
    show sfSiteKey (groupTop (ne.filter (fun x => decide (sampleSiteKey x = k)))) = k
    unfold groupTop
    rw [hg]
    exact hkey

/-- The keys reported by the `sites` dict are exactly its keys, in order. -/
theorem allocationSites_keys (snap : HeapSnapshot) :
    (allocationSites snap).map TopSite.key
      = dedupFirst ((snap.samples.filter (fun s => ! s.stack.isEmpty)).map
          sampleSiteKey) := by
  unfold allocationSites
  rw [List.map_map]
  refine (List.map_congr_left ?_).trans (List.map_id _)
  intro k hk
  exact mkSite_key _ k (mem_dedupFirst.mp hk)

/-- Claim C8 counterexample: two samples whose top frames differ as
`(function, file, line)` triples but share the joined string key
`"a:b:c:1"` are merged into a single group, so `top_allocators` does not
group by the triple. -/
theorem c8_cex :
    exCollideSnap.top_allocators 10
      = [{ function := "a:b", file := "c", line := 1,
           estimated_bytes := 30, sample_count := 2 }]
    ∧ ((("a" : String), ("b:c" : String), (1 : Int))
        ≠ (("a:b" : String), ("c" : String), (1 : Int))) :=
  ⟨by decide, by decide⟩

/-- Claim C8 as amended: `top_allocators(n)` groups the samples with a
nonempty stack by the joined display key `function:file:line` of
`stack[0]` (so distinct triples with colliding joined keys are merged,
reporting the first sample's triple): each returned site's
`estimated_bytes` is the sum of its group's weights and `sample_count` the
group's size, every nonempty-stack sample's key has a group, at most `n`
sites are returned, sorted by `estimated_bytes` descending with pairwise
distinct keys. -/
theorem c8_top_allocators :
    (∀ (snap : HeapSnapshot) (n : Nat),
        (snap.top_allocators n).length ≤ n
        ∧ (snap.top_allocators n).Pairwise siteBefore
        ∧ ((snap.top_allocators n).map TopSite.key).Nodup)
    ∧ (∀ (snap : HeapSnapshot) (n : Nat) (site : TopSite),
        site ∈ snap.top_allocators n →
        site.estimated_bytes
          = (((snap.samples.filter (fun s => ! s.stack.isEmpty)).filter
              (fun s => decide (sampleSiteKey s = site.key))).map
                (·.weight)).sum
        ∧ site.sample_count
          = ((snap.samples.filter (fun s => ! s.stack.isEmpty)).filter
              (fun s => decide (sampleSiteKey s = site.key))).length)
    ∧ (∀ (snap : HeapSnapshot) (s : AllocationSample),
        s ∈ snap.samples → s.stack ≠ [] →
        sampleSiteKey s ∈ (allocationSites snap).map TopSite.key) := by
  have htot : ∀ a b : TopSite, siteBefore a b ∨ siteBefore b a :=
    fun a b => le_total b.estimated_bytes a.estimated_bytes
  have htr : ∀ {a b c : TopSite}, siteBefore a b → siteBefore b c →
      siteBefore a c := fun hab hbc => le_trans hbc hab
  refine ⟨?_, ?_, ?_⟩
  · intro snap n
    refine ⟨List.length_take_le n _, ?_, ?_⟩
    · exact (pairwise_insertionSort siteBefore htot
          (fun hab hbc => htr hab hbc) _).sublist (List.take_sublist n _)
    · have h1 : ((allocationSites snap).map TopSite.key).Nodup := by
        rw [allocationSites_keys]
        exact nodup_dedupFirst _
      have h2 : ((List.insertionSort siteBefore
          (allocationSites snap)).map TopSite.key).Nodup :=
        (((List.perm_insertionSort siteBefore _).map TopSite.key).symm).nodup h1
      exact (List.Sublist.map TopSite.key (List.take_sublist n _)).nodup h2
  · intro snap n site hsite
    have h1 : site ∈ List.insertionSort siteBefore (allocationSites snap) :=
      (List.take_sublist n _).subset hsite
    have h2 : site ∈ allocationSites snap :=
      (List.perm_insertionSort siteBefore _).mem_iff.mp h1
    rcases List.mem_map.mp h2 with ⟨k, hk, rfl⟩
    rw [mkSite_key _ k (mem_dedupFirst.mp hk)]
    exact ⟨rfl, rfl⟩
  · intro snap s hs hne
    rw [allocationSites_keys]
    refine mem_dedupFirst.mpr ?_
    refine List.mem_map_of_mem _ ?_
    refine List.mem_filter.mpr ⟨hs, ?_⟩
    cases hf : s.stack with
    | nil => exact absurd hf hne
    | cons a t => rfl

/-- Witness for C8: the merged site of the colliding snapshot satisfies the
group-sum equations, and both samples' keys are covered. -/
theorem c8_witness :
    ((TopSite.mk "a:b" "c" 1 30 2).estimated_bytes
      = (((exCollideSnap.samples.filter (fun s => ! s.stack.isEmpty)).filter
          (fun s => decide (sampleSiteKey s = (TopSite.mk "a:b" "c" 1 30 2).key))).map
            (·.weight)).sum
    ∧ (TopSite.mk "a:b" "c" 1 30 2).sample_count
      = ((exCollideSnap.samples.filter (fun s => ! s.stack.isEmpty)).filter
          (fun s => decide (sampleSiteKey s = (TopSite.mk "a:b" "c" 1 30 2).key))).length)
    ∧ (exCollideSnap.top_allocators 10).length ≤ 10 :=
  ⟨c8_top_allocators.2.1 exCollideSnap 10 (TopSite.mk "a:b" "c" 1 30 2)
      (by decide),
   (c8_top_allocators.1 exCollideSnap 10).1⟩

/-- Claim C3 evidence: on a profile whose single sample has the leaf-first
frames `[leaf, root]`, both CPU emitters put the LEAF's frame index first
(`samples = [[0, 1]]` with `shared.frames[0] = leaf`), i.e. they emit
leaf-root order, while the memory emitter reverses its leaf-first stack
and emits root-leaf order (`[[1, 0]]` with `shared.frames[1] = root`) as
the spec requires of all three. -/
theorem c3_sample_order :
    (to_speedscope exOrderProfile).sharedFrames
        = [("leaf", "l.py", (1 : Int)), ("root", "r.py", (2 : Int))]
    ∧ (to_speedscope exOrderProfile).profiles.map (·.samples) = [[[0, 1]]]
    ∧ (aggregated_to_speedscope exOrderProfile.aggregate).sharedFrames
        = [("leaf", "l.py", (1 : Int)), ("root", "r.py", (2 : Int))]
    ∧ (aggregated_to_speedscope exOrderProfile.aggregate).profiles.map
        (·.samples) = [[[0, 1]]]
    ∧ (memSaveSpeedscope exMemSnap).sharedFrames
        = [("mleaf", "ml.c", (1 : Int)), ("mroot", "mr.c", (2 : Int))]
    ∧ (memSaveSpeedscope exMemSnap).profiles.map (·.samples) = [[[1, 0]]] :=
  ⟨by decide, by decide, by decide, by decide, by decide, by decide⟩

/-- Claim C4 counterexample: the memory emitter's document has only the
four keys `$schema`, `version`, `shared`, `profiles` — no `name` and no
`exporter` key — so it is not an object with exactly the claimed six keys. -/
theorem c4_cex :
    (memSaveSpeedscope exMemSnap).topKeys
        = ["$schema", "version", "shared", "profiles"]
    ∧ (memSaveSpeedscope exMemSnap).exporter = none
    ∧ (memSaveSpeedscope exMemSnap).topKeys
        ≠ ["$schema", "version", "shared", "profiles", "name", "exporter"] :=
  ⟨rfl, rfl, by decide⟩

/-- Claim C4 as amended: both CPU emitters produce a single object with
exactly the keys `$schema, version, shared, profiles, name, exporter`, with
`exporter = "spprof 0.1.0"`; the memory emitter produces exactly
`$schema, version, shared, profiles` (no `name`, no `exporter`). In every
document, `shared.frames` holds `{name, file, line}` entries with duplicate
frames deduplicated into a single entry. -/
theorem c4_doc_keys :
    (∀ p : Profile,
        (to_speedscope p).topKeys
            = ["$schema", "version", "shared", "profiles", "name", "exporter"]
        ∧ (to_speedscope p).exporter = some "spprof 0.1.0"
        ∧ (to_speedscope p).sharedFrames.Nodup)
    ∧ (∀ a : AggregatedProfile,
        (aggregated_to_speedscope a).topKeys
            = ["$schema", "version", "shared", "profiles", "name", "exporter"]
        ∧ (aggregated_to_speedscope a).exporter = some "spprof 0.1.0"
        ∧ (aggregated_to_speedscope a).sharedFrames.Nodup)
    ∧ (∀ snap : HeapSnapshot,
        (memSaveSpeedscope snap).topKeys
            = ["$schema", "version", "shared", "profiles"]
        ∧ (memSaveSpeedscope snap).name = none
        ∧ (memSaveSpeedscope snap).exporter = none
        ∧ (memSaveSpeedscope snap).sharedFrames.Nodup) := by
  refine ⟨fun p => ⟨rfl, rfl, ?_⟩, fun a => ⟨rfl, rfl, ?_⟩,
    fun snap => ⟨rfl, rfl, rfl, ?_⟩⟩
  · exact buildThreads_nodup p _ [] List.nodup_nil
  · exact buildAggThreads_nodup a _ [] List.nodup_nil
  · have hinv : memInv (memInternAll ⟨[], []⟩ snap.samples) :=
      memInternAll_inv snap.samples ⟨[], []⟩ ⟨rfl, List.nodup_nil⟩
    exact List.Nodup.of_map memEntryKey (hinv.1 ▸ hinv.2)

end Spprof

